import Mathlib

/-!
Shallow embedding of the sqloo data-access layer.

The repository ships two dialect implementations of the same interface:
`src/src/postgres.js` (client/server engine, numbered `$n` placeholders)
and the embedded-engine file (positional `?` placeholders).  Statement
construction is pure string building over the caller's mappings, so it is
embedded directly; driver execution is abstracted as an oracle
`Driver : String → List Val → List Row` standing for the backend's answer
to a parameterized query.
-/

namespace Sqloo

/-- Scalar values bindable as SQL parameters (text, integer, null stand in
for the JS scalar universe). -/
inductive Val where
  | str : String → Val
  | int : Int → Val
  | null : Val
deriving DecidableEq, Repr

/-- A caller-supplied mapping (InsertData / UpdateData / WhereClause) or a
driver-produced row: column name to scalar, in enumeration order.  JS object
key enumeration is a fixed order, so a list of pairs models it faithfully;
`Object.keys` is `rowKeys`, `Object.values` is `rowValues`. -/
abbrev Row := List (String × Val)

/-- Enumeration-order keys of a mapping (JS `Object.keys`). -/
def rowKeys (r : Row) : List String := r.map Prod.fst

/-- Enumeration-order values of a mapping (JS `Object.values`). -/
def rowValues (r : Row) : List Val := r.map Prod.snd

/-- A parameterized statement `{ sql, values }` as built by the library. -/
structure Stmt where
  sql : String
  values : List Val
deriving DecidableEq, Repr

/-- The raw result object the pg driver's `client.query` resolves to: it
carries the full array of matching rows (`result.rows`), not a single row. -/
structure QueryResult where
  rows : List Row
deriving DecidableEq, Repr

/-- Abstraction of the backend driver: the list of rows the engine returns
for a given sql text and bound values. -/
def Driver := String → List Val → List Row

/-- Concatenation of a list of strings, used to state closed forms of the
string-building loops. -/
def concatAll : List String → String
  | [] => ""
  | s :: rest => s ++ concatAll rest

/-- The argument shape of the library's `insert`: the JS code branches on
`Array.isArray(data)` between a single mapping and a sequence of mappings. -/
inductive InsertData where
  | one : Row → InsertData
  | many : List Row → InsertData
deriving DecidableEq, Repr

/-- Loop body of both dialects' `parseTemplate`, parameterized by the
dialect's placeholder token for position `i`:
`for (i...) { values.push(vars[i]); sql += ph(i) + strings[i+1]; }`.
The remaining interpolated values are consumed one per iteration while `i`
counts the iterations already performed, exactly as the JS loop does. -/
def templGo (ph : Nat → String) (strings : List String) :
    List Val → Nat → String → List Val → Stmt
  | [], _, sql, values => { sql := sql, values := values }
  | v :: vs, i, sql, values =>
    templGo ph strings vs (i + 1) (sql ++ ph i ++ strings.getD (i + 1) "") (values ++ [v])

/-- Arguments a method returned by `table(name)` can receive.  Only needed to
express that the self-recursive bound methods re-call themselves with the
table name in the data position. -/
inductive TableArg where
  | str : String → TableArg
  | row : Row → TableArg
  | rows : List Row → TableArg
deriving DecidableEq, Repr

namespace Postgres

/-- Numbered placeholder for position `i`: the pg dialect writes `$(i+1)`. -/
def placeholder (i : Nat) : String := "$" ++ toString (i + 1)

/-- Tagged-template parameterizer of `src/src/postgres.js`:
`sql = strings[0]` then for each interpolated value append `$(i+1)` and the
next literal fragment, pushing the value. -/
def parseTemplate (strings : List String) (vars : List Val) : Stmt :=
  templGo placeholder strings vars 0 (strings.getD 0 "") []

/-- Statement built by `insert` in `src/src/postgres.js`.  The array branch
reads `Object.keys(data[0])` — on an empty array `data[0]` is undefined and
the keys read throws, modelled as `Except.error`; otherwise one placeholder
group per row, group `i` slot `j` numbered `$(i*k+j+1)`, and the values are
`data.reduce((acc, row) => acc.concat(Object.values(row)), [])`.  The single
branch numbers `$(i+1)` over the mapping's own keys. -/
def insertStmt (table : String) (data : InsertData) : Except String Stmt :=
  match data with
  | .many rows =>
    match rows with
    | [] => .error "TypeError: cannot read keys of undefined"
    | r0 :: _ =>
      let keys := rowKeys r0
      let placeholders := String.intercalate ", " ((List.range rows.length).map fun i =>
        "(" ++ String.intercalate ", " ((List.range keys.length).map fun j =>
          "$" ++ toString (i * keys.length + j + 1)) ++ ")")
      let query := "INSERT INTO " ++ table ++ " (" ++ String.intercalate ", " keys ++
        ") VALUES " ++ placeholders
      let values := rows.foldl (fun acc row => acc ++ rowValues row) []
      .ok { sql := query, values := values }
  | .one row =>
    let keys := rowKeys row
    let values := rowValues row
    let placeholders := String.intercalate ", "
      ((List.range keys.length).map fun i => "$" ++ toString (i + 1))
    let query := "INSERT INTO " ++ table ++ " (" ++ String.intercalate ", " keys ++
      ") VALUES (" ++ placeholders ++ ")"
    .ok { sql := query, values := values }

/-- Statement built by `get` in `src/src/postgres.js`: where keys joined with
`" AND "`, each `key = $(i+1)`, interpolated into
`SELECT * FROM table WHERE whereClause`. -/
def getStmt (table : String) (w : Row) : Stmt :=
  let keys := rowKeys w
  let values := rowValues w
  let whereClause := String.intercalate " AND "
    (keys.enum.map fun p => p.2 ++ " = $" ++ toString (p.1 + 1))
  { sql := "SELECT * FROM " ++ table ++ " WHERE " ++ whereClause, values := values }

/-- Statement built by `list` in `src/src/postgres.js` (textually the same
construction as `get`). -/
def listStmt (table : String) (w : Row) : Stmt :=
  let keys := rowKeys w
  let values := rowValues w
  let whereClause := String.intercalate " AND "
    (keys.enum.map fun p => p.2 ++ " = $" ++ toString (p.1 + 1))
  { sql := "SELECT * FROM " ++ table ++ " WHERE " ++ whereClause, values := values }

/-- Statement built by `update` in `src/src/postgres.js`: SET over the data
keys numbered `$(i+1)`, WHERE over the where keys numbered
`$(i+1+values.length)`, bound values `[...values, ...whereValues]`. -/
def updateStmt (table : String) (w : Row) (d : Row) : Stmt :=
  let keys := rowKeys d
  let values := rowValues d
  let setClause := String.intercalate ", "
    (keys.enum.map fun p => p.2 ++ " = $" ++ toString (p.1 + 1))
  let whereKeys := rowKeys w
  let whereValues := rowValues w
  let whereClause := String.intercalate " AND "
    (whereKeys.enum.map fun p => p.2 ++ " = $" ++ toString (p.1 + 1 + values.length))
  { sql := "UPDATE " ++ table ++ " SET " ++ setClause ++ " WHERE " ++ whereClause,
    values := values ++ whereValues }

/-- Behaviour of pg `get` under a driver oracle: the function returns
`client.query(query, values)` itself, i.e. the whole `QueryResult`, without
selecting a first row. -/
def getRun (exec : Driver) (table : String) (w : Row) : QueryResult :=
  let st := getStmt table w
  { rows := exec st.sql st.values }

/-- Behaviour of pg `list` under a driver oracle: likewise the raw
`QueryResult` of `client.query`. -/
def listRun (exec : Driver) (table : String) (w : Row) : QueryResult :=
  let st := listStmt table w
  { rows := exec st.sql st.values }

/-- JS property access on a row object, as performed by `row[0]` (the index
is coerced to the property name "0"). -/
def jsProp (r : Row) (name : String) : Option Val :=
  (r.find? fun p => p.1 = name).map Prod.snd

/-- Behaviour of pg `pluck` under a driver oracle: the code evaluates
`result.rows[0][0]`.  When no row comes back, `result.rows[0]` is undefined
and the inner index access throws a TypeError (`Except.error`); when a row
comes back it is a plain object keyed by column names, so `[0]` reads the
property named "0". -/
def pluckRun (exec : Driver) (strings : List String) (vars : List Val) :
    Except String (Option Val) :=
  let st := parseTemplate strings vars
  match (exec st.sql st.values).head? with
  | none => .error "TypeError: cannot read properties of undefined"
  | some r => .ok (jsProp r "0")

/-- Fuel semantics of the `insert` member returned by `table(name)` in
`src/src/postgres.js`.  The body `const insert = (data) => insert(table, data)`
resolves `insert` to the inner binding itself, so every call re-enters the
same closure, with the closure's single parameter rebound to the first
argument `table`; fuel `0` is stack exhaustion, and no call ever produces a
statement. -/
def tableInsertFuel (t : String) : Nat → TableArg → Option Stmt
  | 0, _ => none
  | n + 1, _ => tableInsertFuel t n (TableArg.str t)

/-- Fuel semantics of the `get` member returned by `table(name)`: the same
self-shadowing recursion as `tableInsertFuel`. -/
def tableGetFuel (t : String) : Nat → TableArg → Option QueryResult
  | 0, _ => none
  | n + 1, _ => tableGetFuel t n (TableArg.str t)

/-- Fuel semantics of the `list` member returned by `table(name)`: the same
self-shadowing recursion as `tableInsertFuel`. -/
def tableListFuel (t : String) : Nat → TableArg → Option QueryResult
  | 0, _ => none
  | n + 1, _ => tableListFuel t n (TableArg.str t)

end Postgres

namespace Sqlite

/-- Positional placeholder: the embedded dialect writes `?` at every slot. -/
def placeholder (_ : Nat) : String := "?"

/-- Tagged-template parameterizer of the embedded-engine file: identical loop
to the pg one but appending `"?"` instead of a numbered token. -/
def parseTemplate (strings : List String) (vars : List Val) : Stmt :=
  templGo placeholder strings vars 0 (strings.getD 0 "") []

/-- Statement built by `insert` in the embedded-engine file: the array branch
maps each row to a group `(?, ..., ?)` of `keys.length` question marks and
concatenates every row's `Object.values`; the single branch is one group. -/
def insertStmt (table : String) (data : InsertData) : Except String Stmt :=
  match data with
  | .many rows =>
    match rows with
    | [] => .error "TypeError: cannot read keys of undefined"
    | r0 :: _ =>
      let keys := rowKeys r0
      let placeholders := String.intercalate ", " (rows.map fun _ =>
        "(" ++ String.intercalate ", " (keys.map fun _ => "?") ++ ")")
      let query := "INSERT INTO " ++ table ++ " (" ++ String.intercalate ", " keys ++
        ") VALUES " ++ placeholders
      let values := rows.foldl (fun acc row => acc ++ rowValues row) []
      .ok { sql := query, values := values }
  | .one row =>
    let keys := rowKeys row
    let placeholders := String.intercalate ", " (keys.map fun _ => "?")
    let query := "INSERT INTO " ++ table ++ " (" ++ String.intercalate ", " keys ++
      ") VALUES (" ++ placeholders ++ ")"
    .ok { sql := query, values := rowValues row }

/-- Statement built by `get` in the embedded-engine file: lower-case
`select * from table where ...`, conditions `key = ?` joined with `" and "`. -/
def getStmt (table : String) (w : Row) : Stmt :=
  let keys := rowKeys w
  let values := rowValues w
  let whereClause := String.intercalate " and " (keys.map fun key => key ++ " = ?")
  { sql := "select * from " ++ table ++ " where " ++ whereClause, values := values }

/-- Statement built by `list` in the embedded-engine file (same construction
as `get`). -/
def listStmt (table : String) (w : Row) : Stmt :=
  let keys := rowKeys w
  let values := rowValues w
  let whereClause := String.intercalate " and " (keys.map fun key => key ++ " = ?")
  { sql := "select * from " ++ table ++ " where " ++ whereClause, values := values }

/-- Statement built by `update` in the embedded-engine file: `key = ?` SET
items joined with `", "`, where conditions joined with `" AND "`, bound
values `[...values, ...whereValues]`. -/
def updateStmt (table : String) (w : Row) (d : Row) : Stmt :=
  let keys := rowKeys d
  let values := rowValues d
  let setClause := String.intercalate ", " (keys.map fun key => key ++ " = ?")
  let whereKeys := rowKeys w
  let whereValues := rowValues w
  let whereClause := String.intercalate " AND " (whereKeys.map fun key => key ++ " = ?")
  { sql := "UPDATE " ++ table ++ " SET " ++ setClause ++ " WHERE " ++ whereClause,
    values := values ++ whereValues }

/-- Behaviour of embedded `get` under a driver oracle: the driver's `.get`
primitive yields the first matching row or absence. -/
def getRun (exec : Driver) (table : String) (w : Row) : Option Row :=
  let st := getStmt table w
  (exec st.sql st.values).head?

/-- Behaviour of embedded `list` under a driver oracle: the driver's `.all`
primitive yields every matching row in order. -/
def listRun (exec : Driver) (table : String) (w : Row) : List Row :=
  let st := listStmt table w
  exec st.sql st.values

/-- Behaviour of embedded `pluck` under a driver oracle: the driver's
`.pluck().get` primitive yields the first column of the first row, or
absence when no row matches. -/
def pluckRun (exec : Driver) (strings : List String) (vars : List Val) : Option Val :=
  let st := parseTemplate strings vars
  (exec st.sql st.values).head?.bind fun r => (rowValues r).head?

/-- Fuel semantics of the `insert` member returned by `table(name)` in the
embedded-engine file: the identical self-shadowing recursion as in the pg
file. -/
def tableInsertFuel (t : String) : Nat → TableArg → Option Stmt
  | 0, _ => none
  | n + 1, _ => tableInsertFuel t n (TableArg.str t)

/-- Fuel semantics of the `get` member returned by `table(name)` in the
embedded-engine file. -/
def tableGetFuel (t : String) : Nat → TableArg → Option Row
  | 0, _ => none
  | n + 1, _ => tableGetFuel t n (TableArg.str t)

/-- Fuel semantics of the `list` member returned by `table(name)` in the
embedded-engine file. -/
def tableListFuel (t : String) : Nat → TableArg → Option (List Row)
  | 0, _ => none
  | n + 1, _ => tableListFuel t n (TableArg.str t)

end Sqlite

/-! Helper lemmas: closed forms of the string-building loops. -/

theorem concatAll_nil : concatAll [] = "" := rfl

theorem concatAll_cons (s : String) (l : List String) :
    concatAll (s :: l) = s ++ concatAll l := rfl

/-- Closed form of the `parseTemplate` loop: starting at index `i` with
accumulated text `sql` and accumulated values `acc`, the loop appends one
placeholder-plus-fragment pair per remaining value and pushes all remaining
values in order. -/
theorem templGo_spec (ph : Nat → String) (strings : List String) :
    ∀ (vs : List Val) (i : Nat) (sql : String) (acc : List Val),
    templGo ph strings vs i sql acc =
      { sql := sql ++ concatAll ((List.range' i vs.length).map
          fun j => ph j ++ strings.getD (j + 1) ""),
        values := acc ++ vs } := by
  intro vs
  induction vs with
  | nil =>
    intro i sql acc
    simp [templGo, concatAll]
  | cons v vs ih =>
    intro i sql acc
    show templGo ph strings vs (i + 1) (sql ++ ph i ++ strings.getD (i + 1) "") (acc ++ [v]) = _
    rw [ih]
    simp [List.range'_succ, concatAll_cons, String.append_assoc]

/-- The `reduce`-style accumulation of row values equals the flattened list
of each row's values in row order. -/
theorem foldl_concat_values (rows : List Row) :
    ∀ init : List Val,
    rows.foldl (fun acc row => acc ++ rowValues row) init
      = init ++ (rows.map rowValues).flatten := by
  induction rows with
  | nil => intro init; simp
  | cons r rs ih =>
    intro init
    simp only [List.foldl_cons, List.map_cons, List.flatten_cons]
    rw [ih]
    simp [List.append_assoc]

/-- The multi-row insert numbering `$(i*k+j+1)`, flattened over rows then
columns, is exactly the consecutive run `1, 2, ..., n*k`: strictly
increasing across the whole statement, no number reused. -/
theorem insertMany_numbers (n k : Nat) :
    ((List.range n).map fun i => (List.range k).map fun j => i * k + j + 1).flatten
      = List.range' 1 (n * k) := by
  induction n with
  | zero => simp
  | succ n ih =>
    rw [List.range_succ, List.map_append, List.flatten_append, ih]
    have h1 : ((List.range k).map fun j => n * k + j + 1) = List.range' (1 + n * k) k := by
      rw [List.range'_eq_map_range]
      apply List.map_congr_left
      intro j _
      omega
    simp only [List.map_cons, List.map_nil, List.flatten_cons, List.flatten_nil,
      List.append_nil]
    rw [h1, List.range'_append_1]
    congr 1
    rw [Nat.succ_mul, Nat.add_comm]

/-- The update numbering — data slots `$(i+1)` followed by where slots
`$(i+1+d)` — is the consecutive run `1, 2, ..., d+w`. -/
theorem update_numbers (d w : Nat) :
    (((List.range d).map fun i => i + 1) ++ ((List.range w).map fun i => i + 1 + d))
      = List.range' 1 (d + w) := by
  have h1 : ((List.range d).map fun i => i + 1) = List.range' 1 d := by
    rw [List.range'_eq_map_range]
    apply List.map_congr_left
    intro j _
    omega
  have h2 : ((List.range w).map fun i => i + 1 + d) = List.range' (1 + d) w := by
    rw [List.range'_eq_map_range]
    apply List.map_congr_left
    intro j _
    omega
  rw [h1, h2, List.range'_append_1, Nat.add_comm w d]

/-- C1: for fragments `F` and interpolated values `V` with
`len(F) = len(V)+1`, `parseTemplate` in either dialect returns `{sql, values}`
with `values = V` in order, and `sql = F[0]` followed for each `i` by the
dialect placeholder for position `i` (`?` positional, `$(i+1)` numbered) and
then `F[i+1]`; for `n = 0` this degenerates to `sql = F[0]`, `values = []`. -/
theorem parseTemplate_correct (F : List String) (V : List Val)
    (h : F.length = V.length + 1) :
    (Postgres.parseTemplate F V).values = V ∧
    (Postgres.parseTemplate F V).sql =
      F.headD "" ++ concatAll ((List.range V.length).map
        fun i => "$" ++ toString (i + 1) ++ F.getD (i + 1) "") ∧
    (Sqlite.parseTemplate F V).values = V ∧
    (Sqlite.parseTemplate F V).sql =
      F.headD "" ++ concatAll ((List.range V.length).map
        fun i => "?" ++ F.getD (i + 1) "") := by
  unfold Postgres.parseTemplate Sqlite.parseTemplate
  rw [templGo_spec, templGo_spec]
  have hhead : F[0]? = F.head? := by
    cases F <;> simp
  refine ⟨by simp, ?_, by simp, ?_⟩ <;>
    simp [hhead, List.range_eq_range', Postgres.placeholder, Sqlite.placeholder,
      String.append_assoc]

/-- Closed instance of C1 discharging its length hypothesis. -/
theorem parseTemplate_correct_witness :
    (["a ", " b ", ""] : List String).length = ([Val.int 1, Val.int 2] : List Val).length + 1 ∧
    ((Postgres.parseTemplate ["a ", " b ", ""] [Val.int 1, Val.int 2]).values
        = [Val.int 1, Val.int 2] ∧
      (Postgres.parseTemplate ["a ", " b ", ""] [Val.int 1, Val.int 2]).sql =
        (["a ", " b ", ""] : List String).headD "" ++
          concatAll ((List.range ([Val.int 1, Val.int 2] : List Val).length).map
            fun i => "$" ++ toString (i + 1) ++ (["a ", " b ", ""] : List String).getD (i + 1) "") ∧
      (Sqlite.parseTemplate ["a ", " b ", ""] [Val.int 1, Val.int 2]).values
        = [Val.int 1, Val.int 2] ∧
      (Sqlite.parseTemplate ["a ", " b ", ""] [Val.int 1, Val.int 2]).sql =
        (["a ", " b ", ""] : List String).headD "" ++
          concatAll ((List.range ([Val.int 1, Val.int 2] : List Val).length).map
            fun i => "?" ++ (["a ", " b ", ""] : List String).getD (i + 1) "")) :=
  ⟨by decide, parseTemplate_correct ["a ", " b ", ""] [Val.int 1, Val.int 2] (by decide)⟩

/-- C2: for a non-empty sequence of mappings sharing one key set in one
enumeration order, `insert(table, rows)` builds an INSERT whose column list
is the first row's keys, with one placeholder group per row of `k` slots
each (`k` = number of keys, witnessed by every row contributing `k` values),
whose bound values are the concatenation of each row's values in row order
then within-row key order, and whose numbered-dialect parameter numbers
— row `i` column `j` receiving `$(i*k+j+1)` — form the consecutive run
`1..rows.length*k` with no reuse; the positional dialect repeats `?`. -/
theorem insertMany_correct (t : String) (r0 : Row) (rest : List Row)
    (hkeys : ∀ r ∈ r0 :: rest, rowKeys r = rowKeys r0) :
    Postgres.insertStmt t (.many (r0 :: rest)) = .ok {
      sql := "INSERT INTO " ++ t ++ " (" ++ String.intercalate ", " (rowKeys r0)
        ++ ") VALUES " ++ String.intercalate ", "
          ((List.range (r0 :: rest).length).map fun i =>
            "(" ++ String.intercalate ", " ((List.range (rowKeys r0).length).map fun j =>
              "$" ++ toString (i * (rowKeys r0).length + j + 1)) ++ ")"),
      values := ((r0 :: rest).map rowValues).flatten } ∧
    (∀ r ∈ r0 :: rest, (rowValues r).length = (rowKeys r0).length) ∧
    ((List.range (r0 :: rest).length).map fun i =>
        (List.range (rowKeys r0).length).map fun j =>
          i * (rowKeys r0).length + j + 1).flatten
      = List.range' 1 ((r0 :: rest).length * (rowKeys r0).length) ∧
    Sqlite.insertStmt t (.many (r0 :: rest)) = .ok {
      sql := "INSERT INTO " ++ t ++ " (" ++ String.intercalate ", " (rowKeys r0)
        ++ ") VALUES " ++ String.intercalate ", " ((r0 :: rest).map fun _ =>
          "(" ++ String.intercalate ", " ((rowKeys r0).map fun _ => "?") ++ ")"),
      values := ((r0 :: rest).map rowValues).flatten } := by
  have hv := foldl_concat_values (r0 :: rest) []
  refine ⟨?_, ?_, insertMany_numbers _ _, ?_⟩
  · simp only [Postgres.insertStmt]
    rw [hv]
    simp
  · intro r hr
    have hk := hkeys r hr
    have : (rowKeys r).length = (rowKeys r0).length := by rw [hk]
    simpa [rowKeys, rowValues] using this
  · simp only [Sqlite.insertStmt]
    rw [hv]
    simp

/-- Closed instance of C2 discharging its shared-key-set hypothesis on the
two-row insert from the repository's test suite. -/
theorem insertMany_correct_witness :
    (∀ r ∈ ([("title", Val.str "hello"), ("body", Val.str "world")] : Row) ::
        [[("title", Val.str "hi"), ("body", Val.str "universe")]],
      rowKeys r = rowKeys [("title", Val.str "hello"), ("body", Val.str "world")]) ∧
    (Postgres.insertStmt "contents"
        (.many ([("title", Val.str "hello"), ("body", Val.str "world")] ::
          [[("title", Val.str "hi"), ("body", Val.str "universe")]]))
      = .ok {
        sql := "INSERT INTO " ++ "contents" ++ " (" ++
          String.intercalate ", "
            (rowKeys [("title", Val.str "hello"), ("body", Val.str "world")])
          ++ ") VALUES " ++ String.intercalate ", "
            ((List.range ([("title", Val.str "hello"), ("body", Val.str "world")] ::
                [[("title", Val.str "hi"), ("body", Val.str "universe")]]).length).map fun i =>
              "(" ++ String.intercalate ", " ((List.range
                  (rowKeys [("title", Val.str "hello"), ("body", Val.str "world")]).length).map
                    fun j =>
                "$" ++ toString
                  (i * (rowKeys [("title", Val.str "hello"), ("body", Val.str "world")]).length
                    + j + 1)) ++ ")"),
        values := (([("title", Val.str "hello"), ("body", Val.str "world")] ::
          [[("title", Val.str "hi"), ("body", Val.str "universe")]]).map rowValues).flatten }) :=
  ⟨by decide,
    (insertMany_correct "contents" [("title", Val.str "hello"), ("body", Val.str "world")]
      [[("title", Val.str "hi"), ("body", Val.str "universe")]] (by decide)).1⟩

/-- C3: `update(table, where, data)` builds an UPDATE whose SET clause lists
the data keys in enumeration order, whose WHERE clause joins the where keys
with AND, with data placeholders numbered before where placeholders
continuing the same counter (where key `i` receiving `$(i+1+len(data))`, the
combined numbers forming the consecutive run `1..len(data)+len(where)`), and
whose bound values equal `values(data) ++ values(where)`, in both dialects. -/
theorem update_correct (t : String) (w d : Row) :
    (Postgres.updateStmt t w d).values = rowValues d ++ rowValues w ∧
    (Postgres.updateStmt t w d).sql =
      "UPDATE " ++ t ++ " SET " ++ String.intercalate ", "
        ((rowKeys d).enum.map fun p => p.2 ++ " = $" ++ toString (p.1 + 1))
      ++ " WHERE " ++ String.intercalate " AND "
        ((rowKeys w).enum.map fun p => p.2 ++ " = $" ++ toString (p.1 + 1 + d.length)) ∧
    (((List.range d.length).map fun i => i + 1) ++
        ((List.range w.length).map fun i => i + 1 + d.length))
      = List.range' 1 (d.length + w.length) ∧
    (Sqlite.updateStmt t w d).values = rowValues d ++ rowValues w ∧
    (Sqlite.updateStmt t w d).sql =
      "UPDATE " ++ t ++ " SET " ++ String.intercalate ", "
        ((rowKeys d).map fun key => key ++ " = ?")
      ++ " WHERE " ++ String.intercalate " AND "
        ((rowKeys w).map fun key => key ++ " = ?") := by
  refine ⟨rfl, ?_, update_numbers _ _, rfl, rfl⟩
  simp [Postgres.updateStmt, rowValues]

/-- C4: `insert(table, data)` on a single mapping produces SQL whose column
list order equals the enumeration order of the mapping's keys and whose
bound values equal the mapping's values in the same order, with equally many
keys and values, in both dialects. -/
theorem insertOne_correct (t : String) (d : Row) :
    Postgres.insertStmt t (.one d) = .ok {
      sql := "INSERT INTO " ++ t ++ " (" ++ String.intercalate ", " (rowKeys d)
        ++ ") VALUES (" ++ String.intercalate ", "
          ((List.range d.length).map fun i => "$" ++ toString (i + 1)) ++ ")",
      values := rowValues d } ∧
    Sqlite.insertStmt t (.one d) = .ok {
      sql := "INSERT INTO " ++ t ++ " (" ++ String.intercalate ", " (rowKeys d)
        ++ ") VALUES (" ++ String.intercalate ", " ((rowKeys d).map fun _ => "?") ++ ")",
      values := rowValues d } ∧
    (rowKeys d).length = (rowValues d).length := by
  refine ⟨?_, rfl, by simp [rowKeys, rowValues]⟩
  simp [Postgres.insertStmt, rowKeys]

/-- C5 evaluated at a failing input: with a driver answering two rows for
the built query, the pg `get` returns the whole `QueryResult` carrying both
rows rather than at most one, while the embedded `get` does return only the
first row.  Hence the pg dialect violates the at-most-one-Row contract. -/
theorem pgGet_returnsAllRows :
    (Postgres.getRun
        (fun _ _ => [[("title", Val.str "hello"), ("body", Val.str "world")],
          [("title", Val.str "hello"), ("body", Val.str "again")]])
        "contents" [("title", Val.str "hello")]).rows
      = [[("title", Val.str "hello"), ("body", Val.str "world")],
          [("title", Val.str "hello"), ("body", Val.str "again")]] ∧
    Sqlite.getRun
        (fun _ _ => [[("title", Val.str "hello"), ("body", Val.str "world")],
          [("title", Val.str "hello"), ("body", Val.str "again")]])
        "contents" [("title", Val.str "hello")]
      = some [("title", Val.str "hello"), ("body", Val.str "world")] :=
  ⟨rfl, rfl⟩

/-- C6 evaluated at a failing input: on a query yielding no rows the pg
`pluck` evaluates `result.rows[0][0]` and throws a TypeError instead of
returning absence; on a query yielding a row it reads property "0" of the
row object — absence, not the first column.  The embedded `pluck` behaves as
claimed in both situations. -/
theorem pgPluck_throwsOnEmpty :
    Postgres.pluckRun (fun _ _ => []) ["select title from contents"] []
      = .error "TypeError: cannot read properties of undefined" ∧
    Postgres.pluckRun (fun _ _ => [[("title", Val.str "hello")]])
      ["select title from contents"] [] = .ok none ∧
    Sqlite.pluckRun (fun _ _ => []) ["select title from contents"] [] = none ∧
    Sqlite.pluckRun (fun _ _ => [[("title", Val.str "hello")]])
      ["select title from contents"] [] = some (Val.str "hello") :=
  ⟨rfl, rfl, rfl, rfl⟩

/-- C7 evaluated at a failing input: `insert` with two rows whose key sets
disagree in enumeration order is not rejected — both dialects build a
complete statement from the first row's keys and every row's own values, so
the second row's values `3, 4` are bound to the columns `a, b` even though
that row maps `b` to `3` and `a` to `4`. -/
theorem insertMany_inconsistentKeys_notRejected :
    Postgres.insertStmt "t" (.many [[("a", Val.int 1), ("b", Val.int 2)],
        [("b", Val.int 3), ("a", Val.int 4)]])
      = .ok { sql := "INSERT INTO t (a, b) VALUES ($1, $2), ($3, $4)",
              values := [Val.int 1, Val.int 2, Val.int 3, Val.int 4] } ∧
    Sqlite.insertStmt "t" (.many [[("a", Val.int 1), ("b", Val.int 2)],
        [("b", Val.int 3), ("a", Val.int 4)]])
      = .ok { sql := "INSERT INTO t (a, b) VALUES (?, ?), (?, ?)",
              values := [Val.int 1, Val.int 2, Val.int 3, Val.int 4] } :=
  ⟨rfl, rfl⟩

/-- C8 evaluated on the failing code: every member returned by
`table(name)` re-enters its own closure forever — under any amount of fuel
none of `insert`, `get`, `list` bound to a table ever produces a result, in
either dialect, so they are not the top-level operations partially applied. -/
theorem tableMethods_neverReturn (t : String) :
    ∀ (n : Nat) (a : TableArg),
      Postgres.tableInsertFuel t n a = none ∧
      Postgres.tableGetFuel t n a = none ∧
      Postgres.tableListFuel t n a = none ∧
      Sqlite.tableInsertFuel t n a = none ∧
      Sqlite.tableGetFuel t n a = none ∧
      Sqlite.tableListFuel t n a = none := by
  intro n
  induction n with
  | zero => intro a; exact ⟨rfl, rfl, rfl, rfl, rfl, rfl⟩
  | succ n ih => intro a; exact ih (TableArg.str t)

/-- C9: statement construction for `get` and `list` is deterministic — equal
`where` mappings (same keys, values and enumeration order) compile to
byte-identical SQL text and identical bound-value order, in both dialects. -/
theorem getList_deterministic (t : String) (w w' : Row) (h : w = w') :
    (Postgres.getStmt t w).sql = (Postgres.getStmt t w').sql ∧
    (Postgres.getStmt t w).values = (Postgres.getStmt t w').values ∧
    (Postgres.listStmt t w).sql = (Postgres.listStmt t w').sql ∧
    (Postgres.listStmt t w).values = (Postgres.listStmt t w').values ∧
    (Sqlite.getStmt t w).sql = (Sqlite.getStmt t w').sql ∧
    (Sqlite.getStmt t w).values = (Sqlite.getStmt t w').values ∧
    (Sqlite.listStmt t w).sql = (Sqlite.listStmt t w').sql ∧
    (Sqlite.listStmt t w).values = (Sqlite.listStmt t w').values := by
  subst h
  exact ⟨rfl, rfl, rfl, rfl, rfl, rfl, rfl, rfl⟩

/-- Closed instance of C9 discharging its equal-mapping hypothesis. -/
theorem getList_deterministic_witness :
    (Postgres.getStmt "contents" [("title", Val.str "hello")]).sql
        = (Postgres.getStmt "contents" [("title", Val.str "hello")]).sql ∧
    (Postgres.getStmt "contents" [("title", Val.str "hello")]).values
        = (Postgres.getStmt "contents" [("title", Val.str "hello")]).values ∧
    (Postgres.listStmt "contents" [("title", Val.str "hello")]).sql
        = (Postgres.listStmt "contents" [("title", Val.str "hello")]).sql ∧
    (Postgres.listStmt "contents" [("title", Val.str "hello")]).values
        = (Postgres.listStmt "contents" [("title", Val.str "hello")]).values ∧
    (Sqlite.getStmt "contents" [("title", Val.str "hello")]).sql
        = (Sqlite.getStmt "contents" [("title", Val.str "hello")]).sql ∧
    (Sqlite.getStmt "contents" [("title", Val.str "hello")]).values
        = (Sqlite.getStmt "contents" [("title", Val.str "hello")]).values ∧
    (Sqlite.listStmt "contents" [("title", Val.str "hello")]).sql
        = (Sqlite.listStmt "contents" [("title", Val.str "hello")]).sql ∧
    (Sqlite.listStmt "contents" [("title", Val.str "hello")]).values
        = (Sqlite.listStmt "contents" [("title", Val.str "hello")]).values :=
  getList_deterministic "contents" [("title", Val.str "hello")]
    [("title", Val.str "hello")] rfl

/-- C10: with an empty `where` mapping, `get` and `list` still build and
submit a statement whose text is `SELECT * FROM <table> WHERE ` (lower-case
in the embedded dialect) with nothing after WHERE and no bound values — no
guard rejects or special-cases the empty mapping. -/
theorem emptyWhere_noGuard (t : String) (exec : Driver) :
    Postgres.getStmt t [] = { sql := "SELECT * FROM " ++ t ++ " WHERE ", values := [] } ∧
    Postgres.listStmt t [] = { sql := "SELECT * FROM " ++ t ++ " WHERE ", values := [] } ∧
    Sqlite.getStmt t [] = { sql := "select * from " ++ t ++ " where ", values := [] } ∧
    Sqlite.listStmt t [] = { sql := "select * from " ++ t ++ " where ", values := [] } ∧
    (Postgres.getRun exec t []).rows = exec ("SELECT * FROM " ++ t ++ " WHERE ") [] ∧
    (Postgres.listRun exec t []).rows = exec ("SELECT * FROM " ++ t ++ " WHERE ") [] ∧
    Sqlite.getRun exec t [] = (exec ("select * from " ++ t ++ " where ") []).head? ∧
    Sqlite.listRun exec t [] = exec ("select * from " ++ t ++ " where ") [] := by
  have hpg : Postgres.getStmt t []
      = { sql := "SELECT * FROM " ++ t ++ " WHERE ", values := [] } := by
    simp [Postgres.getStmt, rowKeys, rowValues, String.intercalate]
  have hsq : Sqlite.getStmt t []
      = { sql := "select * from " ++ t ++ " where ", values := [] } := by
    simp [Sqlite.getStmt, rowKeys, rowValues, String.intercalate]
  refine ⟨hpg, hpg, hsq, hsq, ?_, ?_, ?_, ?_⟩ <;>
    simp [Postgres.getRun, Postgres.listRun, Sqlite.getRun, Sqlite.listRun,
      Postgres.listStmt, Sqlite.listStmt, Postgres.getStmt, Sqlite.getStmt,
      rowKeys, rowValues, String.intercalate]

end Sqloo
